import Mathlib

/-!
Verification of the numeric interpolation and lookup engine of the
aircraft-performance calculator: the 1-D bracket interpolator and
two-stage cruise-row lookup, the two natural-cubic-spline
implementations, the bilinear grid lookup, and the bicubic
(Catmull-Rom) climb-grid lookup.

All numbers are modelled as exact rationals; a thrown JavaScript
exception (RangeError, out-of-bounds error, defensive assertion, or a
TypeError from reading a property of `undefined`) is modelled as
`Option.none`.

Every source loop of the shape
  for i in 0 .. n-2: if v >= a[i] and v <= a[i+1] then use pair i
is embedded through the shared first-match scan `findBr` below.
-/

/-- First-match bracket scan: the index `i` of the first adjacent pair
with `xs[i] <= v <= xs[i+1]`, or `none` when no pair matches. -/
def findBr : List ℚ → ℚ → Option ℕ
  | x0 :: x1 :: rest, v =>
    if x0 ≤ v ∧ v ≤ x1 then some 0
    else (findBr (x1 :: rest) v).map (· + 1)
  | _, _ => none

theorem findBr_some_spec : ∀ (xs : List ℚ) (v : ℚ) (k : ℕ),
    findBr xs v = some k →
    ∃ a b, xs.get? k = some a ∧ xs.get? (k + 1) = some b ∧ a ≤ v ∧ v ≤ b
  | [], v, k, h => by simp [findBr] at h
  | [x0], v, k, h => by simp [findBr] at h
  | x0 :: x1 :: rest, v, k, h => by
    rw [findBr] at h
    by_cases hbr : x0 ≤ v ∧ v ≤ x1
    · rw [if_pos hbr] at h
      obtain rfl : (0 : ℕ) = k := by simpa using h
      exact ⟨x0, x1, rfl, rfl, hbr.1, hbr.2⟩
    · rw [if_neg hbr] at h
      obtain ⟨k', hk', rfl⟩ := Option.map_eq_some'.mp h
      obtain ⟨a, b, ha, hb, hav, hvb⟩ := findBr_some_spec (x1 :: rest) v k' hk'
      exact ⟨a, b, by simpa using ha, by simpa using hb, hav, hvb⟩

theorem findBr_none_no_bracket : ∀ (xs : List ℚ) (v : ℚ),
    findBr xs v = none →
    ∀ k a b, xs.get? k = some a → xs.get? (k + 1) = some b →
      ¬(a ≤ v ∧ v ≤ b)
  | [], v, _, k, a, b, ha, _ => by simp at ha
  | [x0], v, _, k, a, b, ha, hb => by
    match k with
    | 0 => simp at hb
    | k' + 1 => simp at ha
  | x0 :: x1 :: rest, v, h, k, a, b, ha, hb => by
    rw [findBr] at h
    by_cases hbr : x0 ≤ v ∧ v ≤ x1
    · rw [if_pos hbr] at h
      exact absurd h (by simp)
    · rw [if_neg hbr] at h
      match k with
      | 0 =>
        obtain rfl : x0 = a := by simpa using ha
        obtain rfl : x1 = b := by simpa using hb
        exact hbr
      | k' + 1 =>
        exact findBr_none_no_bracket (x1 :: rest) v (by simpa using h)
          k' a b (by simpa using ha) (by simpa using hb)

theorem findBr_eq_none_iff {xs : List ℚ} {v : ℚ} :
    findBr xs v = none ↔
      ∀ k a b, xs.get? k = some a → xs.get? (k + 1) = some b →
        ¬(a ≤ v ∧ v ≤ b) := by
  constructor
  · exact findBr_none_no_bracket xs v
  · intro h
    cases hfb : findBr xs v with
    | none => rfl
    | some k =>
      obtain ⟨a, b, ha, hb, hav, hvb⟩ := findBr_some_spec xs v k hfb
      exact absurd ⟨hav, hvb⟩ (h k a b ha hb)

theorem findBr_first : ∀ (xs : List ℚ) (v : ℚ) (k : ℕ),
    findBr xs v = some k →
    ∀ j a b, j < k → xs.get? j = some a → xs.get? (j + 1) = some b →
      ¬(a ≤ v ∧ v ≤ b)
  | [], v, k, h => by simp [findBr] at h
  | [x0], v, k, h => by simp [findBr] at h
  | x0 :: x1 :: rest, v, k, h => by
    rw [findBr] at h
    by_cases hbr : x0 ≤ v ∧ v ≤ x1
    · rw [if_pos hbr] at h
      obtain rfl : (0 : ℕ) = k := by simpa using h
      intro j a b hj
      exact absurd hj (Nat.not_lt_zero j)
    · rw [if_neg hbr] at h
      obtain ⟨k', hk', rfl⟩ := Option.map_eq_some'.mp h
      intro j a b hj ha hb
      match j with
      | 0 =>
        obtain rfl : x0 = a := by simpa using ha
        obtain rfl : x1 = b := by simpa using hb
        exact hbr
      | j' + 1 =>
        exact findBr_first (x1 :: rest) v k' hk' j' a b (by omega)
          (by simpa using ha) (by simpa using hb)

/-- On a list whose endpoints enclose `v`, the scan always succeeds
(no monotonicity needed). -/
theorem findBr_isSome {x0 : ℚ} {rest : List ℚ} {v : ℚ}
    (hne : rest ≠ []) (hlo : x0 ≤ v) (hhi : v ≤ (x0 :: rest).getLastD 0) :
    ∃ k, findBr (x0 :: rest) v = some k := by
  induction rest generalizing x0 with
  | nil => exact absurd rfl hne
  | cons x1 rest' ih =>
    by_cases hbr : x0 ≤ v ∧ v ≤ x1
    · exact ⟨0, by rw [findBr, if_pos hbr]⟩
    · have hx1 : x1 ≤ v := by
        by_contra hlt
        exact hbr ⟨hlo, le_of_not_le hlt⟩
      have hrest : rest' ≠ [] := by
        rintro rfl
        simp only [List.getLastD_cons] at hhi
        exact hbr ⟨hlo, by simpa using hhi⟩
      have hhi' : v ≤ (x1 :: rest').getLastD 0 := by
        simpa [List.getLastD_cons] using hhi
      obtain ⟨k, hk⟩ := ih hrest hx1 hhi'
      exact ⟨k + 1, by rw [findBr, if_neg hbr, hk]; rfl⟩

/-- Entries of a strictly-increasing list are strictly ordered by index. -/
theorem chain_lt_of_get {xs : List ℚ} (hc : xs.Chain' (· < ·))
    {i j : ℕ} {a b : ℚ} (hij : i < j)
    (ha : xs.get? i = some a) (hb : xs.get? j = some b) : a < b := by
  obtain ⟨hi, rfl⟩ := List.get?_eq_some.mp ha
  obtain ⟨hj, rfl⟩ := List.get?_eq_some.mp hb
  exact List.pairwise_iff_get.mp (List.chain'_iff_pairwise.mp hc) ⟨i, hi⟩ ⟨j, hj⟩ hij

/-- On a strictly increasing list with at least two entries, the first
bracket containing the head is the pair `(0, 1)`. -/
theorem findBr_at_knot_zero {x0 x1 : ℚ} {rest : List ℚ}
    (hc : (x0 :: x1 :: rest).Chain' (· < ·)) :
    findBr (x0 :: x1 :: rest) x0 = some 0 := by
  have h01 : x0 < x1 := (List.chain'_cons.mp hc).1
  rw [findBr, if_pos ⟨le_refl x0, le_of_lt h01⟩]

/-- On a strictly increasing list, the first bracket containing the
knot `xs[i]` with `0 < i` is the pair `(i-1, i)`. -/
theorem findBr_at_knot_pos : ∀ (xs : List ℚ) (i : ℕ) (v : ℚ),
    xs.Chain' (· < ·) → xs.get? i = some v → 0 < i →
    findBr xs v = some (i - 1)
  | _, 0, _, _, _, hi => absurd hi (by omega)
  | [], i + 1, v, _, hget, _ => by simp at hget
  | [x0], i + 1, v, _, hget, _ => by simp at hget
  | x0 :: x1 :: rest, 1, v, hc, hget, _ => by
    obtain rfl : x1 = v := by simpa using hget
    have h01 : x0 < x1 := (List.chain'_cons.mp hc).1
    rw [findBr, if_pos ⟨le_of_lt h01, le_refl x1⟩]
  | x0 :: x1 :: rest, i + 2, v, hc, hget, _ => by
    have htail := (List.chain'_cons.mp hc).2
    have hx1v : x1 < v :=
      chain_lt_of_get htail (show 0 < i + 1 by omega) (by simp)
        (by simpa using hget)
    have hbr : ¬(x0 ≤ v ∧ v ≤ x1) := by
      rintro ⟨_, hvx1⟩
      exact absurd hvx1 (not_le.mpr hx1v)
    rw [findBr, if_neg hbr,
      findBr_at_knot_pos (x1 :: rest) (i + 1) v htail (by simpa using hget)
        (by omega)]
    rfl

/-- The last entry of a nonempty list, as an indexed access. -/
theorem getLastD_get? : ∀ (xs : List ℚ), xs ≠ [] →
    xs.get? (xs.length - 1) = some (xs.getLastD 0)
  | [x], _ => rfl
  | x0 :: x1 :: rest, _ => by
    have := getLastD_get? (x1 :: rest) (by simp)
    simpa [List.getLastD_cons] using this

/-- The head of a strictly increasing list of length at least two is
strictly below its last entry. -/
theorem head_lt_getLastD {x0 x1 : ℚ} {rest : List ℚ}
    (hc : (x0 :: x1 :: rest).Chain' (· < ·)) :
    x0 < (x0 :: x1 :: rest).getLastD 0 :=
  chain_lt_of_get hc (i := 0) (j := (x0 :: x1 :: rest).length - 1)
    (by simp) rfl (getLastD_get? _ (by simp))

/-! ## 1-D bracket interpolator and two-stage cruise-row lookup -/

/-- The loop body of `interp1` at the bracket index found by the scan:
read the pair of abscissae and ordinates and linearly interpolate
(a JS `undefined` read is `none`). -/
def interp1At (xs ys : List ℚ) (v : ℚ) (i : ℕ) : Option ℚ :=
  match xs.get? i, xs.get? (i + 1), ys.get? i, ys.get? (i + 1) with
  | some xi, some xi1, some yi, some yi1 =>
    some (yi + (v - xi) / (xi1 - xi) * (yi1 - yi))
  | _, _, _, _ => none

/-- Embeds `interp1(xs, ys, v)`: clamp below the first abscissa, clamp
above the last, otherwise linearly interpolate at the first bracketing
pair; the defensive `value not bracketed` throw is `none`. -/
def interp1 (xs ys : List ℚ) (v : ℚ) : Option ℚ :=
  match xs, ys with
  | x0 :: _, y0 :: _ =>
    if v ≤ x0 then some y0
    else if xs.getLastD 0 ≤ v then some (ys.getLastD 0)
    else (findBr xs v).bind (interp1At xs ys v)
  | _, _ => none

theorem interp1At_eq {xs ys : List ℚ} {v : ℚ} {i : ℕ} {xi xi1 yi yi1 : ℚ}
    (hxi : xs.get? i = some xi) (hxi1 : xs.get? (i + 1) = some xi1)
    (hyi : ys.get? i = some yi) (hyi1 : ys.get? (i + 1) = some yi1) :
    interp1At xs ys v i = some (yi + (v - xi) / (xi1 - xi) * (yi1 - yi)) := by
  rw [interp1At, hxi, hxi1, hyi, hyi1]

theorem interp1_clamp_lo {x0 v : ℚ} {xs ys : List ℚ} {y0 : ℚ}
    (hv : v ≤ x0) :
    interp1 (x0 :: xs) (y0 :: ys) v = some y0 := by
  rw [interp1, if_pos hv]

theorem interp1_clamp_hi {x0 v : ℚ} {xs ys : List ℚ} {y0 : ℚ}
    (hlen : (y0 :: ys).length = (x0 :: xs).length)
    (hc : (x0 :: xs).Chain' (· < ·))
    (hv : (x0 :: xs).getLastD 0 ≤ v) :
    interp1 (x0 :: xs) (y0 :: ys) v = some ((y0 :: ys).getLastD 0) := by
  match xs, ys, hlen with
  | [], [], _ =>
    rw [interp1]
    by_cases hlo : v ≤ x0
    · rw [if_pos hlo]; rfl
    · rw [if_neg hlo, if_pos hv]
  | x1 :: rest, y1 :: ys', hlen =>
    have hlo : ¬ v ≤ x0 :=
      not_le.mpr (lt_of_lt_of_le (head_lt_getLastD hc) hv)
    rw [interp1, if_neg hlo, if_pos hv]

theorem interp1_bracket_value {xs ys : List ℚ} {v : ℚ}
    (hlen : ys.length = xs.length) (hc : xs.Chain' (· < ·))
    {i : ℕ} {xi xi1 yi yi1 : ℚ}
    (hxi : xs.get? i = some xi) (hxi1 : xs.get? (i + 1) = some xi1)
    (hyi : ys.get? i = some yi) (hyi1 : ys.get? (i + 1) = some yi1)
    (hlo : xs.headD 0 < v) (hhi : v < xs.getLastD 0)
    (hbv : xi ≤ v) (hvb : v ≤ xi1) :
    interp1 xs ys v = some (yi + (v - xi) / (xi1 - xi) * (yi1 - yi)) := by
  match xs, ys, hlen with
  | x0 :: xs', y0 :: ys', hlen =>
    have hlo' : x0 < v := by simpa using hlo
    have hne : xs' ≠ [] := by
      rintro rfl
      match i with
      | 0 => simp at hxi1
      | i' + 1 => simp at hxi
    obtain ⟨k, hk⟩ := findBr_isSome hne (le_of_lt hlo') (le_of_lt hhi)
    obtain ⟨xk, xk1, hxk, hxk1, hxkv, hvxk1⟩ :=
      findBr_some_spec (x0 :: xs') v k hk
    have hklen : k + 1 < (x0 :: xs').length := (List.get?_eq_some.mp hxk1).1
    have hyk : (y0 :: ys').get? k = some ((y0 :: ys').get ⟨k, by omega⟩) :=
      List.get?_eq_get (by omega)
    have hyk1 : (y0 :: ys').get? (k + 1) =
        some ((y0 :: ys').get ⟨k + 1, by omega⟩) :=
      List.get?_eq_get (by omega)
    rw [interp1, if_neg (not_le.mpr hlo'), if_neg (not_le.mpr hhi), hk,
      Option.some_bind, interp1At_eq hxk hxk1 hyk hyk1]
    congr 1
    -- the scan's first bracket `k` and the given bracket `i` agree in value
    have hik : k ≤ i := by
      by_contra hlt
      exact findBr_first (x0 :: xs') v k hk i xi xi1 (by omega) hxi hxi1
        ⟨hbv, hvb⟩
    rcases Nat.eq_or_lt_of_le hik with heq | hklt
    · subst heq
      obtain rfl : xk = xi := by rw [hxk] at hxi; injection hxi
      obtain rfl : xk1 = xi1 := by rw [hxk1] at hxi1; injection hxi1
      obtain rfl : (y0 :: ys').get ⟨k, by omega⟩ = yi := by
        rw [hyk] at hyi; injection hyi
      obtain rfl : (y0 :: ys').get ⟨k + 1, by omega⟩ = yi1 := by
        rw [hyk1] at hyi1; injection hyi1
      rfl
    · -- k < i: both brackets contain v, so v = xs[k+1] = xs[i] and i = k+1
      have hkx : xk1 ≤ xi := by
        rcases Nat.eq_or_lt_of_le hklt with heq | hlt2
        · rw [← heq] at hxi
          rw [hxk1] at hxi
          exact le_of_eq (by injection hxi)
        · exact le_of_lt (chain_lt_of_get hc (by omega) hxk1 hxi)
      have hveq1 : v = xk1 := le_antisymm hvxk1 (le_trans hkx hbv)
      have hveq2 : v = xi := le_antisymm (hveq1 ▸ hkx) hbv
      have hieq : i = k + 1 := by
        by_contra hne2
        have : xk1 < xi := chain_lt_of_get hc (by omega) hxk1 hxi
        rw [← hveq1, ← hveq2] at this
        exact lt_irrefl v this
      subst hieq
      obtain rfl : (y0 :: ys').get ⟨k + 1, by omega⟩ = yi := by
        rw [hyk1] at hyi; injection hyi
      have hxkk1 : xk < xk1 := chain_lt_of_get hc (by omega) hxk hxk1
      rw [← hveq1, ← hveq2]
      have hnz : v - xk ≠ 0 := by
        have : xk < v := hveq1 ▸ hxkk1
        exact sub_ne_zero_of_ne (ne_of_gt this)
      field_simp

/-- Totality of `interp1` on well-formed input: the defensive
`value not bracketed` throw is unreachable. -/
theorem interp1_total {xs ys : List ℚ} {v : ℚ}
    (hne : xs ≠ []) (hlen : ys.length = xs.length)
    (hc : xs.Chain' (· < ·)) :
    ∃ r, interp1 xs ys v = some r := by
  match xs, ys, hlen with
  | x0 :: xs', y0 :: ys', hlen =>
    by_cases hlo : v ≤ x0
    · exact ⟨y0, interp1_clamp_lo hlo⟩
    · by_cases hhi : (x0 :: xs').getLastD 0 ≤ v
      · exact ⟨(y0 :: ys').getLastD 0, interp1_clamp_hi hlen hc hhi⟩
      · have hne' : xs' ≠ [] := by
          rintro rfl
          exact hhi (le_of_lt (by simpa using not_le.mp hlo))
        obtain ⟨k, hk⟩ := findBr_isSome hne' (le_of_not_le hlo)
          (le_of_lt (not_le.mp hhi))
        obtain ⟨xk, xk1, hxk, hxk1, hxkv, hvxk1⟩ :=
          findBr_some_spec (x0 :: xs') v k hk
        have hklen : k + 1 < (x0 :: xs').length := (List.get?_eq_some.mp hxk1).1
        have hyk : (y0 :: ys').get? k =
            some ((y0 :: ys').get ⟨k, by omega⟩) := List.get?_eq_get (by omega)
        have hyk1 : (y0 :: ys').get? (k + 1) =
            some ((y0 :: ys').get ⟨k + 1, by omega⟩) :=
          List.get?_eq_get (by omega)
        rw [interp1, if_neg hlo, if_neg hhi, hk, Option.some_bind,
          interp1At_eq hxk hxk1 hyk hyk1]
        exact ⟨_, rfl⟩

/-- Embeds `lerp(a, b, w) = a + w * (b - a)`. -/
def lerp (a b w : ℚ) : ℚ := a + w * (b - a)

/-- JavaScript `Math.round`: round half toward positive infinity. -/
def mathRound (q : ℚ) : ℤ := ⌊q + 1 / 2⌋

/-- Embeds the `CruiseRow` record: altitude, published ISA break-points
with matching RPM values, and TAS at the first and last ISA. -/
structure CruiseRow where
  pa : ℚ
  isa : List ℚ
  rpm : List ℚ
  tasLo : ℚ
  tasHi : ℚ
  deriving DecidableEq

/-- Embeds the `CruiseResult` record. -/
structure CruiseResult where
  rpm : ℚ
  tas : ℚ
  deriving DecidableEq

/-- Embeds `interpolateInRow(row, isaDevC)`: RPM by full 1-D
interpolation over the row's ISA/RPM arrays; TAS constant when the
row's first and last ISA coincide, otherwise an unclamped linear blend
between `tasLo` and `tasHi`. -/
def interpolateInRow (row : CruiseRow) (isaDevC : ℚ) : Option CruiseResult :=
  match interp1 row.isa row.rpm isaDevC with
  | none => none
  | some rpmVal =>
    let isaLo := row.isa.headD 0
    let isaHi := row.isa.getLastD 0
    let tasVal :=
      if isaLo = isaHi then row.tasLo
      else row.tasLo + (isaDevC - isaLo) / (isaHi - isaLo) * (row.tasHi - row.tasLo)
    some ⟨rpmVal, tasVal⟩

/-- Steps 2-3 of `cruiseLookup`: interpolate inside the two bracketing
rows and blend by altitude fraction, rounding RPM to the nearest
multiple of 10 and TAS to the nearest integer. -/
def blendRows (paFt isaDevC : ℚ) (low high : CruiseRow) : Option CruiseResult :=
  match interpolateInRow low isaDevC, interpolateInRow high isaDevC with
  | some resL, some resH =>
    let w := (paFt - low.pa) / (high.pa - low.pa)
    some ⟨((mathRound (lerp resL.rpm resH.rpm w / 10) * 10 : ℤ) : ℚ),
          ((mathRound (lerp resL.tas resH.tas w) : ℤ) : ℚ)⟩
  | _, _ => none

/-- Embeds `cruiseLookup(paFt, isaDevC, rows)`: clamp the altitude to
the first/last row (returning the in-row interpolation directly),
otherwise locate the two bracketing rows (first match, defaulting to
index 0 like the source's `let iLow = 0`) and blend. -/
def cruiseLookup (paFt isaDevC : ℚ) (rows : List CruiseRow) : Option CruiseResult :=
  match rows with
  | [] => none
  | r0 :: _ =>
    if paFt ≤ r0.pa then interpolateInRow r0 isaDevC
    else if (rows.getLastD r0).pa ≤ paFt then
      interpolateInRow (rows.getLastD r0) isaDevC
    else
      let iLow := (findBr (rows.map (fun r => r.pa)) paFt).getD 0
      match rows.get? iLow, rows.get? (iLow + 1) with
      | some low, some high => blendRows paFt isaDevC low high
      | _, _ => none

/-- The embedded Warrior III cruise table (`cruiseRows`). -/
def cruiseRows : List CruiseRow :=
  [ ⟨0, [-15, 0, 10, 20, 30], [2340, 2390, 2420, 2440, 2470], 100, 106⟩,
    ⟨2000, [-15, 0, 10, 20, 30], [2390, 2440, 2460, 2490, 2520], 103, 108⟩,
    ⟨4000, [-15, 0, 10, 20, 30], [2440, 2480, 2510, 2540, 2560], 105, 111⟩,
    ⟨6000, [-15, 0, 10, 20, 30], [2490, 2530, 2560, 2580, 2600], 107, 113⟩,
    ⟨8000, [-15, 0, 10, 17.5], [2530, 2580, 2610, 2630], 109, 114⟩,
    ⟨9000, [-15, 0, 8.5], [2560, 2600, 2630], 110, 114⟩,
    ⟨10000, [-15], [2580], 112, 112⟩ ]

/-- Embeds `getWarrior3Cruise(paFt, isaDevC)`. -/
def getWarrior3Cruise (paFt isaDevC : ℚ) : Option CruiseResult :=
  cruiseLookup paFt isaDevC cruiseRows

/-- A well-formed cruise row: nonempty strictly increasing ISA
break-points and an RPM array of matching length. -/
def ValidCruiseRow (row : CruiseRow) : Prop :=
  row.isa ≠ [] ∧ row.isa.Chain' (· < ·) ∧ row.rpm.length = row.isa.length

theorem interpolateInRow_total (isaDevC : ℚ) {row : CruiseRow}
    (hrow : ValidCruiseRow row) :
    ∃ r, interpolateInRow row isaDevC = some r := by
  obtain ⟨hne, hc, hlen⟩ := hrow
  obtain ⟨rpmVal, hrpm⟩ := interp1_total (v := isaDevC) hne hlen hc
  rw [interpolateInRow, hrpm]
  exact ⟨_, rfl⟩

theorem blendRows_total (paFt isaDevC : ℚ) {low high : CruiseRow}
    (hlow : ValidCruiseRow low) (hhigh : ValidCruiseRow high) :
    ∃ r, blendRows paFt isaDevC low high = some r ∧
      (∃ k : ℤ, r.rpm = 10 * k) ∧ (∃ m : ℤ, r.tas = m) := by
  obtain ⟨resL, hL⟩ := interpolateInRow_total isaDevC hlow
  obtain ⟨resH, hH⟩ := interpolateInRow_total isaDevC hhigh
  rw [blendRows, hL, hH]
  refine ⟨_, rfl, ⟨mathRound (lerp resL.rpm resH.rpm
    ((paFt - low.pa) / (high.pa - low.pa)) / 10), ?_⟩,
    ⟨mathRound (lerp resL.tas resH.tas ((paFt - low.pa) / (high.pa - low.pa))), rfl⟩⟩
  push_cast
  ring

theorem cruiseLookup_interior {rows : List CruiseRow} {r0 rl : CruiseRow}
    (hhead : rows.head? = some r0) (hlast : rows.getLast? = some rl)
    (hrows : ∀ row ∈ rows, ValidCruiseRow row)
    {paFt isaDevC : ℚ}
    (hlo : r0.pa < paFt) (hhi : paFt < rl.pa) :
    ∃ r, cruiseLookup paFt isaDevC rows = some r ∧
      (∃ k : ℤ, r.rpm = 10 * k) ∧ (∃ m : ℤ, r.tas = m) := by
  match rows, hhead with
  | r0' :: rest, hhead =>
    obtain rfl : r0 = r0' := by simpa using hhead.symm
    have hlastD : (r0 :: rest).getLastD r0 = rl := by
      rw [List.getLastD_eq_getLast?, hlast]; rfl
    have hrest : rest ≠ [] := by
      rintro rfl
      obtain rfl : r0 = rl := by simpa using hlast
      exact absurd (lt_trans hlo hhi) (lt_irrefl r0.pa)
    have hmaplast : ((r0 :: rest).map (fun r => r.pa)).getLastD 0 = rl.pa := by
      rw [List.getLastD_eq_getLast?, List.getLast?_map, hlast]; rfl
    have hmapne : rest.map (fun r => r.pa) ≠ [] := by
      simpa using hrest
    obtain ⟨k, hk⟩ : ∃ k, findBr ((r0 :: rest).map (fun r => r.pa)) paFt = some k := by
      have := @findBr_isSome r0.pa (rest.map (fun r => r.pa))
        paFt hmapne (le_of_lt hlo) (by
          rw [show (r0.pa :: rest.map (fun r => r.pa)) =
            ((r0 :: rest).map (fun r => r.pa)) from rfl, hmaplast]
          exact le_of_lt hhi)
      simpa using this
    obtain ⟨a, b, hak, hbk, hav, hvb⟩ :=
      findBr_some_spec ((r0 :: rest).map (fun r => r.pa)) paFt k hk
    rw [List.get?_map] at hak hbk
    obtain ⟨low, hlow, halow⟩ := Option.map_eq_some'.mp hak
    obtain ⟨high, hhigh, hbhigh⟩ := Option.map_eq_some'.mp hbk
    obtain ⟨r, hr, hrpm, htas⟩ := blendRows_total paFt isaDevC
      (hrows low (List.get?_mem hlow)) (hrows high (List.get?_mem hhigh))
    refine ⟨r, ?_, hrpm, htas⟩
    rw [cruiseLookup, if_neg (not_le.mpr hlo)]
    rw [hlastD, if_neg (not_le.mpr hhi), hk]
    show (match (r0 :: rest).get? k, (r0 :: rest).get? (k + 1) with
      | some low, some high => blendRows paFt isaDevC low high
      | _, _ => none) = some r
    rw [hlow, hhigh]
    exact hr

/-- Totality of `cruiseLookup` on a well-formed row table (claim C9's
property): no branch of the lookup can throw. -/
theorem cruiseLookup_total_aux {rows : List CruiseRow}
    (hne : rows ≠ []) (hrows : ∀ row ∈ rows, ValidCruiseRow row)
    (paFt isaDevC : ℚ) :
    ∃ r, cruiseLookup paFt isaDevC rows = some r := by
  match rows, hne with
  | r0 :: rest, _ =>
    have hr0 : ValidCruiseRow r0 := hrows r0 (by simp)
    have hlastmem : (r0 :: rest).getLastD r0 ∈ r0 :: rest := by
      rw [List.getLastD_eq_getLast?,
        List.getLast?_eq_getLast (r0 :: rest) (by simp)]
      exact List.getLast_mem _
    by_cases hlo : paFt ≤ r0.pa
    · obtain ⟨r, hr⟩ := interpolateInRow_total isaDevC hr0
      exact ⟨r, by rw [cruiseLookup, if_pos hlo]; exact hr⟩
    · by_cases hhi : ((r0 :: rest).getLastD r0).pa ≤ paFt
      · obtain ⟨r, hr⟩ := interpolateInRow_total isaDevC (hrows _ hlastmem)
        exact ⟨r, by rw [cruiseLookup, if_neg hlo, if_pos hhi]; exact hr⟩
      · have hlast : (r0 :: rest).getLast? = some ((r0 :: rest).getLastD r0) := by
          rw [List.getLastD_eq_getLast?,
            List.getLast?_eq_getLast (r0 :: rest) (by simp)]
          rfl
        obtain ⟨r, hr, _, _⟩ := @cruiseLookup_interior (r0 :: rest) r0
          ((r0 :: rest).getLastD r0) rfl hlast hrows paFt isaDevC
          (not_le.mp hlo) (not_le.mp hhi)
        exact ⟨r, hr⟩

/-- Claim C6: for strictly increasing `xs` with `ys` of the same
length, `interp1` clamps to `ys[0]` below `xs[0]`, clamps to
`ys[last]` above `xs[last]`, linearly interpolates at a bracketing
pair otherwise, and its defensive `value not bracketed` error branch
is never reached. -/
theorem C6_interp1_spec (xs ys : List ℚ) (v : ℚ) (hne : xs ≠ [])
    (hlen : ys.length = xs.length) (hc : xs.Chain' (· < ·)) :
    (∃ r, interp1 xs ys v = some r) ∧
    (v ≤ xs.headD 0 → interp1 xs ys v = some (ys.headD 0)) ∧
    (xs.getLastD 0 ≤ v → interp1 xs ys v = some (ys.getLastD 0)) ∧
    (∀ i xi xi1 yi yi1, xs.get? i = some xi → xs.get? (i + 1) = some xi1 →
      ys.get? i = some yi → ys.get? (i + 1) = some yi1 →
      xi ≤ v → v ≤ xi1 → xs.headD 0 < v → v < xs.getLastD 0 →
      interp1 xs ys v = some (yi + (v - xi) / (xi1 - xi) * (yi1 - yi))) := by
  refine ⟨interp1_total hne hlen hc, ?_, ?_, ?_⟩
  · intro hv
    match xs, ys, hlen with
    | x0 :: xs', y0 :: ys', hlen =>
      exact interp1_clamp_lo (by simpa using hv)
  · intro hv
    match xs, ys, hlen with
    | x0 :: xs', y0 :: ys', hlen =>
      exact interp1_clamp_hi hlen hc hv
  · intro i xi xi1 yi yi1 hxi hxi1 hyi hyi1 hbv hvb hlo hhi
    exact interp1_bracket_value hlen hc hxi hxi1 hyi hyi1 hlo hhi hbv hvb

theorem C6_interp1_spec_witness :
    interp1 [0, 1, 3] [10, 20, 40] 2 = some 30 := by
  have h := (C6_interp1_spec [0, 1, 3] [10, 20, 40] 2 (by simp) (by simp)
    (by norm_num)).2.2.2 1 1 3 20 40 rfl rfl rfl rfl
    (by norm_num) (by norm_num) (by norm_num) (by norm_num)
  rw [h]
  norm_num

/-- Claim C9: `cruiseLookup` is total on a non-empty table whose row
altitudes are strictly increasing and whose rows each have a non-empty
strictly increasing ISA array with an RPM array of the same length. -/
theorem C9_cruiseLookup_total (rows : List CruiseRow) (hne : rows ≠ [])
    (hpa : (rows.map (fun r => r.pa)).Chain' (· < ·))
    (hrows : ∀ row ∈ rows, ValidCruiseRow row) (paFt isaDevC : ℚ) :
    ∃ r, cruiseLookup paFt isaDevC rows = some r :=
  cruiseLookup_total_aux hne hrows paFt isaDevC

theorem C9_cruiseLookup_total_witness :
    ∃ r, cruiseLookup 12000 50 cruiseRows = some r :=
  C9_cruiseLookup_total cruiseRows (by simp [cruiseRows])
    (by norm_num [cruiseRows, List.chain'_cons, List.chain'_singleton])
    (by norm_num [cruiseRows, ValidCruiseRow, List.chain'_cons,
      List.chain'_singleton]
        exact ⟨by simp, by simp, by simp⟩) 12000 50

/-- Claim C3 counterexample: on the embedded Warrior III table the
altitude-clamped query `(paFt = 0, isaDev = 5)` returns the raw in-row
interpolation `rpm = 2405` (not a multiple of 10) and
`tas = 308/3` (not an integer): the first branch of `cruiseLookup`
returns `interpolateInRow` without any rounding. -/
theorem C3_counterexample :
    ∃ r, getWarrior3Cruise 0 5 = some r ∧
      ¬(∃ k : ℤ, r.rpm = 10 * k) ∧ ¬(∃ m : ℤ, r.tas = m) := by
  refine ⟨⟨2405, 308 / 3⟩, ?_, ?_, ?_⟩
  · norm_num [getWarrior3Cruise, cruiseLookup, interpolateInRow, interp1,
      interp1At, findBr, cruiseRows]
  · show ¬(∃ k : ℤ, (2405 : ℚ) = 10 * k)
    rintro ⟨k, hk⟩
    have h2 : (2405 : ℤ) = 10 * k := by exact_mod_cast hk
    omega
  · show ¬(∃ m : ℤ, (308 / 3 : ℚ) = m)
    rintro ⟨m, hm⟩
    have h3 : (308 : ℚ) = 3 * m := by
      field_simp at hm
      linarith
    have h4 : (308 : ℤ) = 3 * m := by exact_mod_cast h3
    omega

/-- Claim C3 (amended): when the queried altitude lies strictly
between the first and last row altitudes — the altitude-blended path —
`cruiseLookup` returns an RPM that is a multiple of 10 and an integer
TAS; altitude-clamped queries return the in-row result unrounded. -/
theorem C3_blended_rounding (rows : List CruiseRow) (r0 rl : CruiseRow)
    (hhead : rows.head? = some r0) (hlast : rows.getLast? = some rl)
    (hrows : ∀ row ∈ rows, ValidCruiseRow row)
    (paFt isaDevC : ℚ) (hlo : r0.pa < paFt) (hhi : paFt < rl.pa) :
    ∃ r, cruiseLookup paFt isaDevC rows = some r ∧
      (∃ k : ℤ, r.rpm = 10 * k) ∧ (∃ m : ℤ, r.tas = m) :=
  cruiseLookup_interior hhead hlast hrows hlo hhi

theorem C3_blended_rounding_witness :
    ∃ r, cruiseLookup 1000 0 cruiseRows = some r ∧
      (∃ k : ℤ, r.rpm = 10 * k) ∧ (∃ m : ℤ, r.tas = m) :=
  C3_blended_rounding cruiseRows
    ⟨0, [-15, 0, 10, 20, 30], [2340, 2390, 2420, 2440, 2470], 100, 106⟩
    ⟨10000, [-15], [2580], 112, 112⟩ rfl rfl
    (by norm_num [cruiseRows, ValidCruiseRow, List.chain'_cons,
      List.chain'_singleton]
        exact ⟨by simp, by simp, by simp⟩) 1000 0
    (by norm_num) (by norm_num)

/-- Claim C4 counterexample: the claimed result
`rpm = 2390, tas = 106` is not what the embedded Warrior III table
produces at `(paFt = 0, isaDev = 0)`: the TAS blend of row 0 at
`t = (0 - (-15)) / (30 - (-15)) = 1/3` is `100 + 6/3 = 102`. -/
theorem C4_counterexample :
    getWarrior3Cruise 0 0 ≠ some ⟨2390, 106⟩ := by
  have h : getWarrior3Cruise 0 0 = some ⟨2390, 102⟩ := by
    norm_num [getWarrior3Cruise, cruiseLookup, interpolateInRow, interp1,
      interp1At, findBr, cruiseRows]
  rw [h]
  intro hcon
  have h2 : (102 : ℚ) = 106 :=
    congrArg CruiseResult.tas (Option.some.inj hcon)
  norm_num at h2

/-- Claim C4 (amended): on the embedded Warrior III cruise table,
`cruiseLookup(paFt = 0, isaDevC = 0)` returns `rpm = 2390` and
`tas = 102`. -/
theorem C4_warrior_sea_level :
    getWarrior3Cruise 0 0 = some ⟨2390, 102⟩ := by
  norm_num [getWarrior3Cruise, cruiseLookup, interpolateInRow, interp1,
    interp1At, findBr, cruiseRows]

/-! ## Natural cubic spline (two source implementations)

Both `CubicSpline` classes share a token-identical constructor (the
natural-spline tridiagonal solve); they differ only in `findSegment`:
the first locates the containing segment by binary search and the
second by a linear scan from the right.  The constructor arrays
`h`, `alpha`, `mu`, `z`, `c`, `b`, `d` are embedded as index functions
over the knot lists. -/

/-- Step sizes `h[i] = xs[i+1] - xs[i]`. -/
def hStep (xs : List ℚ) (i : ℕ) : ℚ := xs.getD (i + 1) 0 - xs.getD i 0

/-- `alpha[i] = (3/h[i])(ys[i+1]-ys[i]) - (3/h[i-1])(ys[i]-ys[i-1])`,
for the loop range `1 <= i <= n-2`. -/
def alphaCoef (xs ys : List ℚ) (i : ℕ) : ℚ :=
  3 / hStep xs i * (ys.getD (i + 1) 0 - ys.getD i 0) -
    3 / hStep xs (i - 1) * (ys.getD i 0 - ys.getD (i - 1) 0)

/-- The forward sweep producing `(mu[i], z[i])`:
`l[i] = 2(xs[i+1]-xs[i-1]) - h[i-1] mu[i-1]`, `mu[i] = h[i]/l[i]`,
`z[i] = (alpha[i] - h[i-1] z[i-1])/l[i]` for `1 <= i <= n-2`, and
`mu = z = 0` outside that range (the arrays are zero-filled and
`z[n-1]` is set to `0`). -/
def muz (xs ys : List ℚ) : ℕ → ℚ × ℚ
  | 0 => (0, 0)
  | i + 1 =>
    if i + 2 < xs.length then
      let p := muz xs ys i
      let li := 2 * (xs.getD (i + 2) 0 - xs.getD i 0) - hStep xs i * p.1
      (hStep xs (i + 1) / li, (alphaCoef xs ys (i + 1) - hStep xs i * p.2) / li)
    else (0, 0)

def muCoef (xs ys : List ℚ) (i : ℕ) : ℚ := (muz xs ys i).1

def zCoef (xs ys : List ℚ) (i : ℕ) : ℚ := (muz xs ys i).2

/-- The back-substitution array `c` as a list:
`c[n-1] = 0` and `c[j] = z[j] - mu[j] c[j+1]` for `j = n-2 .. 0`. -/
def cList (xs ys : List ℚ) : List ℚ :=
  (List.range (xs.length - 1)).reverse.foldl
    (fun acc j => (zCoef xs ys j - muCoef xs ys j * acc.headD 0) :: acc) [0]

def cCoef (xs ys : List ℚ) (j : ℕ) : ℚ := (cList xs ys).getD j 0

/-- `b[j] = (ys[j+1]-ys[j])/h[j] - h[j](c[j+1]+2c[j])/3`. -/
def bCoef (xs ys : List ℚ) (j : ℕ) : ℚ :=
  (ys.getD (j + 1) 0 - ys.getD j 0) / hStep xs j -
    hStep xs j * (cCoef xs ys (j + 1) + 2 * cCoef xs ys j) / 3

/-- `d[j] = (c[j+1]-c[j])/(3 h[j])`. -/
def dCoef (xs ys : List ℚ) (j : ℕ) : ℚ :=
  (cCoef xs ys (j + 1) - cCoef xs ys j) / (3 * hStep xs j)

/-- Embeds the per-segment record `{x0, a, b, c, d}`. -/
structure Segment where
  x0 : ℚ
  a : ℚ
  b : ℚ
  c : ℚ
  d : ℚ
  deriving DecidableEq

/-- The segment list built by the (shared) constructor body. -/
def mkSegments (xs ys : List ℚ) : List Segment :=
  (List.range (xs.length - 1)).map (fun i =>
    ⟨xs.getD i 0, ys.getD i 0, bCoef xs ys i, cCoef xs ys i, dCoef xs ys i⟩)

/-- The (shared) `CubicSpline` constructor: `none` on the
`InvalidInputError` throws (`n < 2`, length mismatch, or a
non-positive step `h[i] <= 0`), otherwise the segment list. -/
def construct (xs ys : List ℚ) : Option (List Segment) :=
  if 2 ≤ xs.length ∧ ys.length = xs.length ∧ xs.Chain' (· < ·) then
    some (mkSegments xs ys)
  else none

/-- `eval`'s cubic: `a + b dx + c dx^2 + d dx^3` at `dx = x - x0`. -/
def evalSegment (s : Segment) (x : ℚ) : ℚ :=
  s.a + s.b * (x - s.x0) + s.c * (x - s.x0) * (x - s.x0) +
    s.d * (x - s.x0) * (x - s.x0) * (x - s.x0)

/-- The binary-search loop of the first implementation's
`findSegment`, with `mid = (lo + hi) >> 1` (integer `/ 2` on ℤ is the
same floor division as the JS arithmetic shift); falling out
of the loop is the `segment search failed` throw, and an
out-of-range JS index read is also `none`. -/
def bsearchAux (segs : List Segment) (x : ℚ) (lo hi : ℤ) : Option Segment :=
  if lo ≤ hi then
    let mid := (lo + hi) / 2
    match segs.get? mid.toNat with
    | none => none
    | some sm =>
      if x < sm.x0 then bsearchAux segs x lo (mid - 1)
      else
        match segs.get? (mid.toNat + 1) with
        | none => none
        | some sm1 =>
          if sm1.x0 ≤ x then bsearchAux segs x (mid + 1) hi
          else some sm
  else none
termination_by (hi + 1 - lo).toNat
decreasing_by
  · omega
  · omega

/-- The first (binary-search) implementation's `findSegment`: its
range check compares `x` against `segs[segs.length - 1].x0`, the LEFT
knot of the last segment, and its `x === segs[hi].x0` special case
returns the last segment. -/
def findSegmentBin (segs : List Segment) (x : ℚ) : Option Segment :=
  match segs.head?, segs.getLast? with
  | some s0, some sl =>
    if x < s0.x0 ∨ sl.x0 < x then none
    else if x = sl.x0 then some sl
    else bsearchAux segs x 0 ((segs.length : ℤ) - 1)
  | _, _ => none

/-- `eval` of the binary-search `CubicSpline`. -/
def evalBin (xs ys : List ℚ) (x : ℚ) : Option ℚ :=
  match construct xs ys with
  | some segs => (findSegmentBin segs x).map (fun s => evalSegment s x)
  | none => none

/-- The second implementation's linear scan from the right: the first
segment (from the top index downward) with `segs[i].x0 <= x`. -/
def scanFromRight (segs : List Segment) (x : ℚ) : Option Segment :=
  match segs with
  | [] => none
  | s :: rest =>
    match scanFromRight rest x with
    | some r => some r
    | none => if s.x0 ≤ x then some s else none

/-- The second (linear-scan) implementation's `findSegment`: range
check against the stored `xFirst`/`xLast` data endpoints, `x = xLast`
resolved to the last segment, otherwise the scan from the right. -/
def findSegmentLin (xFirst xLast : ℚ) (segs : List Segment) (x : ℚ) :
    Option Segment :=
  if x < xFirst ∨ xLast < x then none
  else if x = xLast then segs.getLast?
  else scanFromRight segs x

/-- `eval` of the linear-scan `CubicSpline` (which stores
`xFirst = xs[0]` and `xLast = xs[n-1]` at construction). -/
def evalLin (xs ys : List ℚ) (x : ℚ) : Option ℚ :=
  match construct xs ys with
  | some segs =>
    (findSegmentLin (xs.headD 0) (xs.getLastD 0) segs x).map
      (fun s => evalSegment s x)
  | none => none

/-- Claim C1 (code bug): on the valid spline through
`(0,0), (1,1), (2,2)` the binary-search implementation's `eval` at the
last knot `x = 2` throws `RangeError` (its range check compares `x`
against the last segment's LEFT knot `xs[n-2] = 1`), while the
linear-scan implementation returns `ys[last] = 2` as the claim states. -/
theorem C1_binary_eval_last_knot_fails :
    evalBin [0, 1, 2] [0, 1, 2] 2 = none ∧
    evalLin [0, 1, 2] [0, 1, 2] 2 = some 2 := by
  constructor
  · norm_num [evalBin, construct, mkSegments, cList, cCoef, muCoef, zCoef, muz,
      alphaCoef, hStep, bCoef, dCoef, List.range_succ, evalSegment,
      findSegmentBin, List.chain'_cons, List.chain'_singleton]
  · norm_num [evalLin, construct, mkSegments, cList, cCoef, muCoef, zCoef, muz,
      alphaCoef, hStep, bCoef, dCoef, List.range_succ, evalSegment,
      findSegmentLin, scanFromRight, List.chain'_cons, List.chain'_singleton]

/-- Claim C2 (code bug): the two implementations are not behaviorally
equivalent: on the valid spline through `(0,0), (1,1), (2,2)` at the
interior query `x = 3/2` (inside the final segment) the binary-search
implementation throws `RangeError` while the linear-scan one returns
`3/2`. -/
theorem C2_implementations_diverge :
    evalBin [0, 1, 2] [0, 1, 2] (3 / 2) = none ∧
    evalLin [0, 1, 2] [0, 1, 2] (3 / 2) = some (3 / 2) := by
  constructor
  · norm_num [evalBin, construct, mkSegments, cList, cCoef, muCoef, zCoef, muz,
      alphaCoef, hStep, bCoef, dCoef, List.range_succ, evalSegment,
      findSegmentBin, List.chain'_cons, List.chain'_singleton]
  · norm_num [evalLin, construct, mkSegments, cList, cCoef, muCoef, zCoef, muz,
      alphaCoef, hStep, bCoef, dCoef, List.range_succ, evalSegment,
      findSegmentLin, scanFromRight, List.chain'_cons, List.chain'_singleton]

/-- Claim C5 (code bug): knot exactness holds at every knot of the
curved spline through `(0,0), (1,1), (2,0)` for the linear-scan
implementation — including the last knot, where the natural-spline
coefficients reproduce `ys[last]` exactly — but the binary-search
implementation throws at the last knot instead of returning `ys[last]`. -/
theorem C5_binary_last_knot_not_exact :
    evalLin [0, 1, 2] [0, 1, 0] 0 = some 0 ∧
    evalLin [0, 1, 2] [0, 1, 0] 1 = some 1 ∧
    evalLin [0, 1, 2] [0, 1, 0] 2 = some 0 ∧
    evalBin [0, 1, 2] [0, 1, 0] 2 = none := by
  refine ⟨?_, ?_, ?_, ?_⟩ <;>
    norm_num [evalLin, evalBin, construct, mkSegments, cList, cCoef, muCoef,
      zCoef, muz, alphaCoef, hStep, bCoef, dCoef, List.range_succ, evalSegment,
      findSegmentLin, findSegmentBin, scanFromRight, List.chain'_cons,
      List.chain'_singleton]

/-! ## Bilinear grid lookup -/

/-- Embeds `bilinear(x, y, x0, x1, y0, y1, f00, f10, f01, f11)`. -/
def bilinear (x y x0 x1 y0 y1 f00 f10 f01 f11 : ℚ) : ℚ :=
  (1 - (x - x0) / (x1 - x0)) * (1 - (y - y0) / (y1 - y0)) * f00 +
    (x - x0) / (x1 - x0) * (1 - (y - y0) / (y1 - y0)) * f10 +
    (1 - (x - x0) / (x1 - x0)) * ((y - y0) / (y1 - y0)) * f01 +
    (x - x0) / (x1 - x0) * ((y - y0) / (y1 - y0)) * f11

/-- Embeds the `BilinearGrid` record. -/
structure BilinearGrid where
  pa : List ℚ
  isa : List ℚ
  table : List (List ℚ)

/-- The `idx` helper of `lookup`: clamp to `(0,0)` below the first
grid line, to `(last,last)` at or above the last, otherwise the first
bracketing pair `(i, i+1)`; the defensive throw is `none`. -/
def idx : List ℚ → ℚ → Option (ℕ × ℕ)
  | [], _ => none
  | a0 :: rest, v =>
    if v ≤ a0 then some (0, 0)
    else if (a0 :: rest).getLastD 0 ≤ v then
      some ((a0 :: rest).length - 1, (a0 :: rest).length - 1)
    else (findBr (a0 :: rest) v).map (fun i => (i, i + 1))

/-- `grid.table[i][j]` (a JS out-of-range read feeding `NaN` into the
arithmetic is `none`). -/
def tableAt (g : BilinearGrid) (i j : ℕ) : Option ℚ :=
  (g.table.get? i).bind (fun row => row.get? j)

/-- Embeds `lookup(paFt, isaDevC, grid)`: bracket both axes with
`idx`, fast-path the degenerate cases, otherwise full bilinear
interpolation. -/
def lookup (paFt isaDevC : ℚ) (g : BilinearGrid) : Option ℚ :=
  match idx g.pa paFt, idx g.isa isaDevC with
  | some (i0, i1), some (j0, j1) =>
    if i0 = i1 ∧ j0 = j1 then tableAt g i0 j0
    else if i0 = i1 then
      match tableAt g i0 j0, tableAt g i0 j1, g.isa.get? j0, g.isa.get? j1 with
      | some f0, some f1, some a0, some a1 =>
        some (f0 + (f1 - f0) * (isaDevC - a0) / (a1 - a0))
      | _, _, _, _ => none
    else if j0 = j1 then
      match tableAt g i0 j0, tableAt g i1 j0, g.pa.get? i0, g.pa.get? i1 with
      | some f0, some f1, some p0, some p1 =>
        some (f0 + (f1 - f0) * (paFt - p0) / (p1 - p0))
      | _, _, _, _ => none
    else
      match g.pa.get? i0, g.pa.get? i1, g.isa.get? j0, g.isa.get? j1,
        tableAt g i0 j0, tableAt g i1 j0, tableAt g i0 j1, tableAt g i1 j1 with
      | some p0, some p1, some a0, some a1,
        some f00, some f10, some f01, some f11 =>
        some (bilinear paFt isaDevC p0 p1 a0 a1 f00 f10 f01 f11)
      | _, _, _, _, _, _, _, _ => none
  | _, _ => none

/-- `idx` at a grid line of a strictly increasing axis: degenerate
`(i, i)` at the two edges, the bracket `(i-1, i)` in the interior. -/
theorem idx_at_knot {arr : List ℚ} (hc : arr.Chain' (· < ·)) {i : ℕ} {v : ℚ}
    (hget : arr.get? i = some v) :
    (idx arr v = some (i, i) ∧ (i = 0 ∨ i = arr.length - 1)) ∨
    (idx arr v = some (i - 1, i) ∧ 0 < i ∧ i < arr.length - 1) := by
  have hlen : i < arr.length := (List.get?_eq_some.mp hget).1
  match arr, hget with
  | a0 :: rest, hget =>
    by_cases hi0 : i = 0
    · subst hi0
      obtain rfl : a0 = v := by simpa using hget
      exact Or.inl ⟨by rw [idx, if_pos (le_refl a0)], Or.inl rfl⟩
    · have hlc : (a0 :: rest).length = rest.length + 1 := by simp
      have h0v : a0 < v :=
        chain_lt_of_get hc (i := 0) (j := i) (by omega) (by simp) hget
      by_cases hilast : i = (a0 :: rest).length - 1
      · left
        refine ⟨?_, Or.inr hilast⟩
        have hgl : (a0 :: rest).getLastD 0 = v := by
          have h := getLastD_get? (a0 :: rest) (by simp)
          rw [← hilast, hget] at h
          exact (Option.some.inj h).symm
        rw [idx, if_neg (not_le.mpr h0v), if_pos (le_of_eq hgl), hilast]
      · right
        refine ⟨?_, by omega, by omega⟩
        have hvlast : v < (a0 :: rest).getLastD 0 := by
          refine chain_lt_of_get hc (i := i)
            (j := (a0 :: rest).length - 1) (by omega) hget
            (getLastD_get? (a0 :: rest) (by simp))
        rw [idx, if_neg (not_le.mpr h0v), if_neg (not_le.mpr hvlast),
          findBr_at_knot_pos (a0 :: rest) i v hc hget (by omega)]
        have hsucc : i - 1 + 1 = i := by omega
        simp [hsucc]

/-- Every in-range cell of a rectangular table exists. -/
theorem tableAt_isSome {g : BilinearGrid}
    (hrows : g.table.length = g.pa.length)
    (hcols : ∀ row ∈ g.table, row.length = g.isa.length)
    {i j : ℕ} (hi : i < g.pa.length) (hj : j < g.isa.length) :
    ∃ w, tableAt g i j = some w := by
  have hi' : i < g.table.length := by omega
  have hrow : g.table.get? i = some (g.table.get ⟨i, hi'⟩) := List.get?_eq_get hi'
  have hjlen : j < (g.table.get ⟨i, hi'⟩).length := by
    rw [hcols _ (List.get_mem g.table i hi')]
    exact hj
  refine ⟨(g.table.get ⟨i, hi'⟩).get ⟨j, hjlen⟩, ?_⟩
  rw [tableAt, hrow, Option.some_bind]
  exact List.get?_eq_get hjlen

theorem lookup_eq_of_idx {g : BilinearGrid} {x y : ℚ} {i0 i1 j0 j1 : ℕ}
    (hx : idx g.pa x = some (i0, i1)) (hy : idx g.isa y = some (j0, j1)) :
    lookup x y g =
      (if i0 = i1 ∧ j0 = j1 then tableAt g i0 j0
      else if i0 = i1 then
        match tableAt g i0 j0, tableAt g i0 j1, g.isa.get? j0, g.isa.get? j1 with
        | some f0, some f1, some a0, some a1 =>
          some (f0 + (f1 - f0) * (y - a0) / (a1 - a0))
        | _, _, _, _ => none
      else if j0 = j1 then
        match tableAt g i0 j0, tableAt g i1 j0, g.pa.get? i0, g.pa.get? i1 with
        | some f0, some f1, some p0, some p1 =>
          some (f0 + (f1 - f0) * (x - p0) / (p1 - p0))
        | _, _, _, _ => none
      else
        match g.pa.get? i0, g.pa.get? i1, g.isa.get? j0, g.isa.get? j1,
          tableAt g i0 j0, tableAt g i1 j0, tableAt g i0 j1, tableAt g i1 j1 with
        | some p0, some p1, some a0, some a1,
          some f00, some f10, some f01, some f11 =>
          some (bilinear x y p0 p1 a0 a1 f00 f10 f01 f11)
        | _, _, _, _, _, _, _, _ => none) := by
  rw [lookup, hx, hy]

/-- Claim C7: on a bilinear grid with strictly increasing axes and a
rectangular table, `lookup` at any pair of grid lines returns exactly
the table cell — edge lines take the degenerate fast paths, interior
lines take the interpolation path with bracket `[k-1, k]` and
fractional position 1. -/
theorem C7_lookup_grid_point (g : BilinearGrid)
    (hpa : g.pa.Chain' (· < ·)) (hisa : g.isa.Chain' (· < ·))
    (hrows : g.table.length = g.pa.length)
    (hcols : ∀ row ∈ g.table, row.length = g.isa.length)
    (i j : ℕ) (pai isaj vij : ℚ)
    (hpai : g.pa.get? i = some pai) (hisaj : g.isa.get? j = some isaj)
    (hvij : tableAt g i j = some vij) :
    lookup pai isaj g = some vij := by
  have hilen : i < g.pa.length := (List.get?_eq_some.mp hpai).1
  have hjlen : j < g.isa.length := (List.get?_eq_some.mp hisaj).1
  rcases idx_at_knot hpa hpai with ⟨hip, _⟩ | ⟨hip, hi0, _⟩ <;>
    rcases idx_at_knot hisa hisaj with ⟨hjp, _⟩ | ⟨hjp, hj0, _⟩
  · -- both axes degenerate
    rw [lookup_eq_of_idx hip hjp, if_pos ⟨rfl, rfl⟩]
    exact hvij
  · -- altitude degenerate, ISA interior
    obtain ⟨f0, hf0⟩ := tableAt_isSome hrows hcols hilen
      (show j - 1 < g.isa.length by omega)
    have ha0 : g.isa.get? (j - 1) = some (g.isa.get ⟨j - 1, by omega⟩) :=
      List.get?_eq_get (by omega)
    have ha01 : g.isa.get ⟨j - 1, by omega⟩ < isaj :=
      chain_lt_of_get hisa (by omega) ha0 hisaj
    rw [lookup_eq_of_idx hip hjp,
      if_neg (by rintro ⟨_, hcon⟩; omega), if_pos rfl, hf0, hvij, ha0, hisaj]
    show some (f0 + (vij - f0) * (isaj - g.isa.get ⟨j - 1, by omega⟩) /
      (isaj - g.isa.get ⟨j - 1, by omega⟩)) = some vij
    congr 1
    have hnz : isaj - g.isa.get ⟨j - 1, by omega⟩ ≠ 0 :=
      sub_ne_zero_of_ne (ne_of_gt ha01)
    rw [mul_div_assoc, div_self hnz, mul_one]
    ring
  · -- ISA degenerate, altitude interior
    obtain ⟨f0, hf0⟩ := tableAt_isSome hrows hcols
      (show i - 1 < g.pa.length by omega) hjlen
    have hp0 : g.pa.get? (i - 1) = some (g.pa.get ⟨i - 1, by omega⟩) :=
      List.get?_eq_get (by omega)
    have hp01 : g.pa.get ⟨i - 1, by omega⟩ < pai :=
      chain_lt_of_get hpa (by omega) hp0 hpai
    rw [lookup_eq_of_idx hip hjp,
      if_neg (by rintro ⟨hcon, _⟩; omega), if_neg (by omega), if_pos rfl,
      hf0, hvij, hp0, hpai]
    show some (f0 + (vij - f0) * (pai - g.pa.get ⟨i - 1, by omega⟩) /
      (pai - g.pa.get ⟨i - 1, by omega⟩)) = some vij
    congr 1
    have hnz : pai - g.pa.get ⟨i - 1, by omega⟩ ≠ 0 :=
      sub_ne_zero_of_ne (ne_of_gt hp01)
    rw [mul_div_assoc, div_self hnz, mul_one]
    ring
  · -- both interior: full bilinear at t = u = 1
    obtain ⟨f00, hf00⟩ := tableAt_isSome hrows hcols
      (show i - 1 < g.pa.length by omega) (show j - 1 < g.isa.length by omega)
    obtain ⟨f10, hf10⟩ := tableAt_isSome hrows hcols hilen
      (show j - 1 < g.isa.length by omega)
    obtain ⟨f01, hf01⟩ := tableAt_isSome hrows hcols
      (show i - 1 < g.pa.length by omega) hjlen
    have hp0 : g.pa.get? (i - 1) = some (g.pa.get ⟨i - 1, by omega⟩) :=
      List.get?_eq_get (by omega)
    have ha0 : g.isa.get? (j - 1) = some (g.isa.get ⟨j - 1, by omega⟩) :=
      List.get?_eq_get (by omega)
    have hp01 : g.pa.get ⟨i - 1, by omega⟩ < pai :=
      chain_lt_of_get hpa (by omega) hp0 hpai
    have ha01 : g.isa.get ⟨j - 1, by omega⟩ < isaj :=
      chain_lt_of_get hisa (by omega) ha0 hisaj
    rw [lookup_eq_of_idx hip hjp,
      if_neg (by rintro ⟨hcon, _⟩; omega), if_neg (by omega),
      if_neg (by omega), hp0, hpai, ha0, hisaj, hf00, hf10, hf01, hvij]
    show some (bilinear pai isaj (g.pa.get ⟨i - 1, by omega⟩) pai
      (g.isa.get ⟨j - 1, by omega⟩) isaj f00 f10 f01 vij) = some vij
    congr 1
    have hnzp : pai - g.pa.get ⟨i - 1, by omega⟩ ≠ 0 :=
      sub_ne_zero_of_ne (ne_of_gt hp01)
    have hnza : isaj - g.isa.get ⟨j - 1, by omega⟩ ≠ 0 :=
      sub_ne_zero_of_ne (ne_of_gt ha01)
    rw [bilinear, div_self hnzp, div_self hnza]
    ring

theorem C7_lookup_grid_point_witness :
    lookup 1 1 ⟨[0, 1, 2], [0, 1, 2], [[1, 2, 3], [4, 5, 6], [7, 8, 9]]⟩ =
      some 5 :=
  C7_lookup_grid_point ⟨[0, 1, 2], [0, 1, 2], [[1, 2, 3], [4, 5, 6], [7, 8, 9]]⟩
    (by norm_num [List.chain'_cons, List.chain'_singleton])
    (by norm_num [List.chain'_cons, List.chain'_singleton])
    (by simp) (by simp) 1 1 1 1 5 rfl rfl rfl

/-! ## Bicubic (Catmull-Rom) climb-grid lookup -/

/-- Embeds the bicubic `DataPoint` record. -/
structure DataPoint where
  x : ℚ
  y : ℚ
  z1 : ℚ
  z2 : ℚ
  deriving DecidableEq, Inhabited

/-- Embeds `cubicWeights(t)`: the four Catmull-Rom kernel weights. -/
def cubicWeights (t : ℚ) : List ℚ :=
  [-(1 / 2) * (t * t * t) + t * t - 1 / 2 * t,
    3 / 2 * (t * t * t) - 5 / 2 * (t * t) + 1,
    -(3 / 2) * (t * t * t) + 2 * (t * t) + 1 / 2 * t,
    1 / 2 * (t * t * t) - 1 / 2 * (t * t)]

/-- Embeds `interpolate1D(p, weights)`: the reduce with
`(value ?? 0) * weights[index]`, a missing (`undefined`) value
treated as 0. -/
def interpolate1D (p : List (Option ℚ)) (w : List ℚ) : ℚ :=
  ((p.zip w).map (fun q => q.1.getD 0 * q.2)).sum

/-- Embeds `locate(value, points)`: the first bracketing interval and
the fractional position inside it; the `Value out of bounds.` throw
is `none`. -/
def locate (v : ℚ) (points : List ℚ) : Option (ℕ × ℚ) :=
  match findBr points v with
  | some i =>
    match points.get? i, points.get? (i + 1) with
    | some a, some b => some (i, (v - a) / (b - a))
    | _, _ => none
  | none => none

/-- `Math.max(0, Math.min(i, len - 1))` on a signed index. -/
def clampIdx (i : ℤ) (len : ℕ) : ℕ := (max 0 (min i ((len : ℤ) - 1))).toNat

/-- The four column reads gathered for one row of the convolution:
indices `max(0, yIndex-1)`, `yIndex`, `min(yIndex+1, len-1)`,
`min(yIndex+2, len-1)` (natural subtraction is the `max(0, ·)`), with
`undefined` reads as `none`. -/
def gatherRow (row : List DataPoint) (yIndex : ℕ) (f : DataPoint → ℚ) :
    List (Option ℚ) :=
  [(row.get? (yIndex - 1)).map f,
    (row.get? yIndex).map f,
    (row.get? (min (yIndex + 1) (row.length - 1))).map f,
    (row.get? (min (yIndex + 2) (row.length - 1))).map f]

/-- Embeds `bicubicInterpolate(grid, x, y)`: locate both axes (the
x-axis over the rows' first-point x's, the y-axis over the first
row's y's), take the Catmull-Rom weights at both fractional
positions, convolve the 4 clamp-indexed candidate rows along y and
reduce along x, for `z1` and `z2` independently. -/
def bicubicInterpolate (grid : List (List DataPoint)) (x y : ℚ) :
    Option (ℚ × ℚ) :=
  match grid.head? with
  | none => none
  | some r0 =>
    match grid.mapM (fun row => (row.head?).map (fun p => p.x)) with
    | none => none
    | some xPoints =>
      match locate x xPoints, locate y (r0.map (fun p => p.y)) with
      | some xres, some yres =>
        let wx := cubicWeights xres.2
        let wy := cubicWeights yres.2
        let rows4 := ([-1, 0, 1, 2] : List ℤ).map
          (fun o => grid.getD (clampIdx ((xres.1 : ℤ) + o) grid.length) [])
        some (interpolate1D ((rows4.map (fun row =>
            interpolate1D (gatherRow row yres.1 (fun p => p.z1)) wy)).map some) wx,
          interpolate1D ((rows4.map (fun row =>
            interpolate1D (gatherRow row yres.1 (fun p => p.z2)) wy)).map some) wx)
      | _, _ => none

/-- The embedded climb figures `realClimbFigures`:
`[isaTempDeviation, altHundreds, minutes, fuelGal]`. -/
def realClimbFigures : List (ℚ × ℚ × ℚ × ℚ) :=
  [(-15, 10, 2, 1.2), (-15, 20, 3, 1.6), (-15, 30, 5, 2), (-15, 40, 6, 2.2),
    (-15, 50, 8, 2.6), (-15, 60, 10, 3.1), (-15, 70, 13, 3.6),
    (-15, 80, 16, 4.1), (-15, 90, 19, 4.9), (-15, 100, 23, 5.6),
    (-15, 110, 28, 6.5), (-15, 120, 33, 7.8),
    (0, 10, 2, 1.3), (0, 20, 3, 1.7), (0, 30, 5, 2), (0, 40, 7, 2.4),
    (0, 50, 10, 3), (0, 60, 13, 3.6), (0, 70, 16, 4.2), (0, 80, 20, 5),
    (0, 90, 24, 5.9), (0, 100, 32, 7), (0, 110, 38, 8.5), (0, 120, 50, 11),
    (15, 10, 2, 1.4), (15, 20, 4, 1.8), (15, 30, 6, 2.2), (15, 40, 8, 2.8),
    (15, 50, 12, 3.4), (15, 60, 15, 4.1), (15, 70, 20, 5), (15, 80, 25, 6),
    (15, 90, 32, 7.5), (15, 100, 44, 9.7),
    (30, 10, 2, 1.5), (30, 20, 5, 2), (30, 30, 8, 2.4), (30, 40, 11, 3.1),
    (30, 50, 15, 4), (30, 60, 20, 5), (30, 70, 26, 6.2), (30, 80, 35, 8),
    (30, 90, 55, 11.8)]

/-- Embeds `mapClimbFigure`. -/
def mapClimbFigure (f : ℚ × ℚ × ℚ × ℚ) : DataPoint :=
  ⟨f.1, f.2.1, f.2.2.1, f.2.2.2⟩

/-- Embeds `mappedClimbFigures`. -/
def mappedClimbFigures : List DataPoint := realClimbFigures.map mapClimbFigure

/-- Embeds `climbGrid`: the four ISA rows filtered out of the flat
figure list. -/
def climbGrid : List (List DataPoint) :=
  [mappedClimbFigures.filter (fun p => p.x == -15),
    mappedClimbFigures.filter (fun p => p.x == 0),
    mappedClimbFigures.filter (fun p => p.x == 15),
    mappedClimbFigures.filter (fun p => p.x == 30)]

/-- Embeds `calculateClimb(isaTempDeviation, altHundreds)`: the pair
`(minutes rounded to the nearest integer, fuelGal unrounded)`. -/
def calculateClimb (isaTempDeviation altHundreds : ℚ) : Option (ℤ × ℚ) :=
  (bicubicInterpolate climbGrid isaTempDeviation altHundreds).map
    (fun r => (mathRound r.1, r.2))

/-- The climb grid's row x-values (each row's first point's `x`). -/
def climbXPoints : List ℚ := climbGrid.map (fun row => (row.headD default).x)

/-- The climb grid's first row's y-values. -/
def climbYPoints : List ℚ := (climbGrid.headD []).map (fun p => p.y)

/-- `v` is bracketed by two consecutive entries of `pts`. -/
def bracketed (pts : List ℚ) (v : ℚ) : Prop :=
  ∃ i a b, pts.get? i = some a ∧ pts.get? (i + 1) = some b ∧ a ≤ v ∧ v ≤ b

/-- The four filtered rows of the embedded climb grid, fully
evaluated. -/
theorem climbGrid_eq : climbGrid =
    [[⟨-15,10,2,1.2⟩, ⟨-15,20,3,1.6⟩, ⟨-15,30,5,2⟩, ⟨-15,40,6,2.2⟩,
      ⟨-15,50,8,2.6⟩, ⟨-15,60,10,3.1⟩, ⟨-15,70,13,3.6⟩, ⟨-15,80,16,4.1⟩,
      ⟨-15,90,19,4.9⟩, ⟨-15,100,23,5.6⟩, ⟨-15,110,28,6.5⟩, ⟨-15,120,33,7.8⟩],
     [⟨0,10,2,1.3⟩, ⟨0,20,3,1.7⟩, ⟨0,30,5,2⟩, ⟨0,40,7,2.4⟩, ⟨0,50,10,3⟩,
      ⟨0,60,13,3.6⟩, ⟨0,70,16,4.2⟩, ⟨0,80,20,5⟩, ⟨0,90,24,5.9⟩,
      ⟨0,100,32,7⟩, ⟨0,110,38,8.5⟩, ⟨0,120,50,11⟩],
     [⟨15,10,2,1.4⟩, ⟨15,20,4,1.8⟩, ⟨15,30,6,2.2⟩, ⟨15,40,8,2.8⟩,
      ⟨15,50,12,3.4⟩, ⟨15,60,15,4.1⟩, ⟨15,70,20,5⟩, ⟨15,80,25,6⟩,
      ⟨15,90,32,7.5⟩, ⟨15,100,44,9.7⟩],
     [⟨30,10,2,1.5⟩, ⟨30,20,5,2⟩, ⟨30,30,8,2.4⟩, ⟨30,40,11,3.1⟩,
      ⟨30,50,15,4⟩, ⟨30,60,20,5⟩, ⟨30,70,26,6.2⟩, ⟨30,80,35,8⟩,
      ⟨30,90,55,11.8⟩]] := by
  norm_num [climbGrid, mappedClimbFigures, realClimbFigures, mapClimbFigure,
    List.filter_cons, beq_iff_eq]

/-- `locate` fails exactly when no adjacent pair brackets the value. -/
theorem locate_eq_none_iff {pts : List ℚ} {v : ℚ} :
    locate v pts = none ↔ ¬ bracketed pts v := by
  cases hfb : findBr pts v with
  | none =>
    have hnb : ¬ bracketed pts v := by
      rintro ⟨i, a, b, ha, hb, hav, hvb⟩
      exact findBr_none_no_bracket pts v hfb i a b ha hb ⟨hav, hvb⟩
    simp only [locate, hfb]
    exact iff_of_true trivial hnb
  | some k =>
    obtain ⟨a, b, ha, hb, hav, hvb⟩ := findBr_some_spec pts v k hfb
    have hbr : bracketed pts v := ⟨k, a, b, ha, hb, hav, hvb⟩
    rw [locate, hfb]
    show (match pts.get? k, pts.get? (k + 1) with
      | some a, some b => some (k, (v - a) / (b - a))
      | _, _ => none) = none ↔ ¬ bracketed pts v
    rw [ha, hb]
    exact iff_of_false (by simp) (by simpa using hbr)

/-- When every row is nonempty, the `xPoints` extraction succeeds and
equals the list of first-point x's. -/
theorem mapM_heads : ∀ (grid : List (List DataPoint)),
    (∀ row ∈ grid, row ≠ []) →
    grid.mapM (fun row => (row.head?).map (fun p => p.x)) =
      some (grid.map (fun row => (row.headD default).x))
  | [], _ => rfl
  | row :: rest, h => by
    match row, h row (by simp) with
    | q :: qs, _ =>
      rw [List.mapM_cons, mapM_heads rest (fun r hr => h r (by simp [hr]))]
      rfl

/-- `bicubicInterpolate` fails exactly when one of the two `locate`
calls fails (given a nonempty grid of nonempty rows). -/
theorem bicubic_none_iff {grid : List (List DataPoint)} {r0 : List DataPoint}
    {xPts : List ℚ} {x y : ℚ}
    (hhead : grid.head? = some r0)
    (hmapM : grid.mapM (fun row => (row.head?).map (fun p => p.x)) = some xPts) :
    (bicubicInterpolate grid x y = none ↔
      locate x xPts = none ∨ locate y (r0.map (fun p => p.y)) = none) := by
  rw [bicubicInterpolate, hhead, hmapM]
  cases hlx : locate x xPts <;>
    cases hly : locate y (r0.map (fun p => p.y)) <;>
      simp [hlx, hly]

/-- Claim C8: `calculateClimb(isaDeviation, altHundreds)` fails (with
the `Value out of bounds.` error) if and only if the ISA deviation is
not bracketed by two consecutive row x-values of the climb grid or the
altitude is not bracketed by two consecutive y-values of the grid's
first row; out-of-domain inputs always fail (no clamping) and
in-domain inputs, domain endpoints included, always return a result. -/
theorem C8_calculateClimb_fails_iff (isa alt : ℚ) :
    calculateClimb isa alt = none ↔
      ¬ bracketed climbXPoints isa ∨ ¬ bracketed climbYPoints alt := by
  have hne : ∀ row ∈ climbGrid, row ≠ [] := by
    rw [climbGrid_eq]
    intro row hrow
    rcases (by simpa using hrow) with rfl | rfl | rfl | rfl <;> simp
  have hhead : climbGrid.head? = some (climbGrid.headD []) := by
    rw [climbGrid_eq]
    rfl
  have hmapM := mapM_heads climbGrid hne
  rw [calculateClimb, Option.map_eq_none', bicubic_none_iff hhead hmapM,
    locate_eq_none_iff, locate_eq_none_iff]
  rfl

/-- `locate` at a grid knot of a strictly increasing axis: fractional
position 0 in bracket `(0, 1)` for the first knot, fractional
position 1 in bracket `(i-1, i)` otherwise. -/
theorem locate_at_knot {pts : List ℚ} (hc : pts.Chain' (· < ·))
    (h2 : 2 ≤ pts.length) {i : ℕ} {v : ℚ} (hget : pts.get? i = some v) :
    locate v pts = some (if i = 0 then ((0 : ℕ), (0 : ℚ)) else (i - 1, 1)) := by
  by_cases hi : i = 0
  · subst hi
    rw [if_pos rfl]
    match pts, h2, hget with
    | a0 :: a1 :: rest, _, hget =>
      obtain rfl : a0 = v := by simpa using hget
      rw [locate, findBr_at_knot_zero hc]
      show (match (a0 :: a1 :: rest).get? 0, (a0 :: a1 :: rest).get? 1 with
        | some a, some b => some (0, (a0 - a) / (b - a))
        | _, _ => none) = some (0, 0)
      show some ((0 : ℕ), (a0 - a0) / (a1 - a0)) = some (0, 0)
      norm_num
  · have hpos : 0 < i := by omega
    rw [if_neg hi, locate, findBr_at_knot_pos pts i v hc hget hpos]
    have hilen : i < pts.length := (List.get?_eq_some.mp hget).1
    have ha : pts.get? (i - 1) = some (pts.get ⟨i - 1, by omega⟩) :=
      List.get?_eq_get (by omega)
    have hgi : pts.get? (i - 1 + 1) = some v := by
      rw [show i - 1 + 1 = i by omega]
      exact hget
    have hav : pts.get ⟨i - 1, by omega⟩ < v :=
      chain_lt_of_get hc (i := i - 1) (j := i) (by omega) ha hget
    show (match pts.get? (i - 1), pts.get? (i - 1 + 1) with
      | some a, some b => some (i - 1, (v - a) / (b - a))
      | _, _ => none) = some (i - 1, 1)
    rw [ha, hgi]
    show some (i - 1, (v - pts.get ⟨i - 1, by omega⟩) /
      (v - pts.get ⟨i - 1, by omega⟩)) = some (i - 1, 1)
    rw [div_self (sub_ne_zero_of_ne (ne_of_gt hav))]

theorem cubicWeights_zero : cubicWeights 0 = [0, 1, 0, 0] := by
  norm_num [cubicWeights]

theorem cubicWeights_one : cubicWeights 1 = [0, 0, 1, 0] := by
  norm_num [cubicWeights]

theorem interpolate1D_w1 (p0 p1 p2 p3 : Option ℚ) :
    interpolate1D [p0, p1, p2, p3] [0, 1, 0, 0] = p1.getD 0 := by
  simp [interpolate1D]

theorem interpolate1D_w2 (p0 p1 p2 p3 : Option ℚ) :
    interpolate1D [p0, p1, p2, p3] [0, 0, 1, 0] = p2.getD 0 := by
  simp [interpolate1D]

/-- The gather at `yIndex = 0` under weights `[0,1,0,0]` selects the
row's first point. -/
theorem gatherRow_at_zero {row : List DataPoint} {p : DataPoint}
    (hp : row.get? 0 = some p) (f : DataPoint → ℚ) :
    interpolate1D (gatherRow row 0 f) (cubicWeights 0) = f p := by
  rw [cubicWeights_zero, gatherRow, interpolate1D_w1, hp]
  rfl

/-- The gather at `yIndex = j - 1` (for `0 < j`) under weights
`[0,0,1,0]` selects the row's point at index `j`. -/
theorem gatherRow_at_pos {row : List DataPoint} {j : ℕ} {p : DataPoint}
    (hj : 0 < j) (hp : row.get? j = some p) (f : DataPoint → ℚ) :
    interpolate1D (gatherRow row (j - 1) f) (cubicWeights 1) = f p := by
  have hjlen : j < row.length := (List.get?_eq_some.mp hp).1
  rw [cubicWeights_one, gatherRow, interpolate1D_w2,
    show min (j - 1 + 1) (row.length - 1) = j by omega, hp]
  rfl

/-- In-range signed indices clamp to themselves. -/
theorem clampIdx_eq {i : ℤ} {len : ℕ} (h0 : 0 ≤ i) (h1 : i < (len : ℤ)) :
    clampIdx i len = i.toNat := by
  rw [clampIdx, min_eq_left (by omega), max_eq_right h0]

theorem interpolate1D_cw0 (p0 p1 p2 p3 : Option ℚ) :
    interpolate1D [p0, p1, p2, p3] (cubicWeights 0) = p1.getD 0 := by
  rw [cubicWeights_zero]
  exact interpolate1D_w1 p0 p1 p2 p3

theorem interpolate1D_cw1 (p0 p1 p2 p3 : Option ℚ) :
    interpolate1D [p0, p1, p2, p3] (cubicWeights 1) = p2.getD 0 := by
  rw [cubicWeights_one]
  exact interpolate1D_w2 p0 p1 p2 p3

/-- The heart of claim C10: `bicubicInterpolate` reproduces any data
point whose coordinates index into both located axes — the Catmull-Rom
weights at fractional positions 0 and 1 select the point's row and
column regardless of the neighboring values. -/
theorem bicubic_at_point {grid : List (List DataPoint)} {r0 : List DataPoint}
    (hhead : grid.head? = some r0)
    (hrowsne : ∀ row ∈ grid, row ≠ [])
    (hxchain : (grid.map (fun row => (row.headD default).x)).Chain' (· < ·))
    (hychain : (r0.map (fun q => q.y)).Chain' (· < ·))
    (hx2 : 2 ≤ grid.length) (hy2 : 2 ≤ r0.length)
    {i j : ℕ} {rowi : List DataPoint} {p : DataPoint}
    (hrow : grid.get? i = some rowi) (hp : rowi.get? j = some p)
    (hxi : (grid.map (fun row => (row.headD default).x)).get? i = some p.x)
    (hyj : (r0.map (fun q => q.y)).get? j = some p.y) :
    bicubicInterpolate grid p.x p.y = some (p.z1, p.z2) := by
  have hmapM := mapM_heads grid hrowsne
  have hlx := locate_at_knot hxchain (by simpa using hx2) hxi
  have hly := locate_at_knot hychain (by simpa using hy2) hyj
  have hilen : i < grid.length := by
    have := (List.get?_eq_some.mp hxi).1
    simpa using this
  by_cases hi : i = 0 <;> by_cases hj : j = 0
  · subst hi; subst hj
    rw [if_pos rfl] at hlx hly
    have hr0 : rowi = r0 := by
      have h0 : grid.get? 0 = some r0 := by rw [List.get?_zero, hhead]
      rw [hrow] at h0
      exact Option.some.inj h0
    subst hr0
    have hsel : grid.getD (clampIdx (((0 : ℕ) : ℤ) + 0) grid.length) [] = rowi := by
      rw [show (((0 : ℕ) : ℤ) + 0) = 0 by norm_num,
        clampIdx_eq (le_refl 0) (by omega), List.getD_eq_getD_get?]
      rw [show (0 : ℤ).toNat = 0 from rfl, hrow]
      rfl
    rw [bicubicInterpolate, hhead, hmapM]
    simp only [hlx, hly, List.map_cons, List.map_nil]
    simp only [interpolate1D_cw0, Option.getD_some]
    rw [hsel]
    simp only [gatherRow_at_zero hp]
  · subst hi
    rw [if_pos rfl] at hlx
    rw [if_neg hj] at hly
    have hr0 : rowi = r0 := by
      have h0 : grid.get? 0 = some r0 := by rw [List.get?_zero, hhead]
      rw [hrow] at h0
      exact Option.some.inj h0
    subst hr0
    have hsel : grid.getD (clampIdx (((0 : ℕ) : ℤ) + 0) grid.length) [] = rowi := by
      rw [show (((0 : ℕ) : ℤ) + 0) = 0 by norm_num,
        clampIdx_eq (le_refl 0) (by omega), List.getD_eq_getD_get?]
      rw [show (0 : ℤ).toNat = 0 from rfl, hrow]
      rfl
    rw [bicubicInterpolate, hhead, hmapM]
    simp only [hlx, hly, List.map_cons, List.map_nil]
    simp only [interpolate1D_cw0, Option.getD_some]
    rw [hsel]
    simp only [gatherRow_at_pos (by omega : 0 < j) hp]
  · subst hj
    rw [if_neg hi] at hlx
    rw [if_pos rfl] at hly
    have hsel : grid.getD (clampIdx (((i - 1 : ℕ) : ℤ) + 1) grid.length) [] = rowi := by
      rw [show ((i - 1 : ℕ) : ℤ) + 1 = (i : ℤ) by omega,
        clampIdx_eq (by omega) (by omega), List.getD_eq_getD_get?,
        Int.toNat_natCast, hrow]
      rfl
    rw [bicubicInterpolate, hhead, hmapM]
    simp only [hlx, hly, List.map_cons, List.map_nil]
    simp only [interpolate1D_cw1, Option.getD_some]
    rw [hsel]
    simp only [gatherRow_at_zero hp]
  · rw [if_neg hi] at hlx
    rw [if_neg hj] at hly
    have hsel : grid.getD (clampIdx (((i - 1 : ℕ) : ℤ) + 1) grid.length) [] = rowi := by
      rw [show ((i - 1 : ℕ) : ℤ) + 1 = (i : ℤ) by omega,
        clampIdx_eq (by omega) (by omega), List.getD_eq_getD_get?,
        Int.toNat_natCast, hrow]
      rfl
    rw [bicubicInterpolate, hhead, hmapM]
    simp only [hlx, hly, List.map_cons, List.map_nil]
    simp only [interpolate1D_cw1, Option.getD_some]
    rw [hsel]
    simp only [gatherRow_at_pos (by omega : 0 < j) hp]

theorem climbGrid_rows_ne : ∀ row ∈ climbGrid, row ≠ [] := by
  rw [climbGrid_eq]
  intro row hrow
  rcases (by simpa using hrow) with rfl | rfl | rfl | rfl <;> simp

theorem climbXPoints_chain :
    (climbGrid.map (fun row => (row.headD default).x)).Chain' (· < ·) := by
  rw [climbGrid_eq]
  norm_num [List.chain'_cons, List.chain'_singleton]

theorem climbYPoints_chain :
    ((climbGrid.headD []).map (fun q => q.y)).Chain' (· < ·) := by
  rw [climbGrid_eq]
  norm_num [List.chain'_cons, List.chain'_singleton]

/-- `calculateClimb` at a grid data point, given the two index facts
into the located axes. -/
theorem calculateClimb_at_row {rowi : List DataPoint} {i j : ℕ} {p : DataPoint}
    (hrow : climbGrid.get? i = some rowi) (hp : rowi.get? j = some p)
    (hpx : (climbGrid.map (fun row => (row.headD default).x)).get? i = some p.x)
    (hyj : ((climbGrid.headD []).map (fun q => q.y)).get? j = some p.y) :
    calculateClimb p.x p.y = some (mathRound p.z1, p.z2) := by
  have hhead : climbGrid.head? = some (climbGrid.headD []) := by
    rw [climbGrid_eq]
    rfl
  have hx2 : 2 ≤ climbGrid.length := by rw [climbGrid_eq]; norm_num
  have hy2 : 2 ≤ (climbGrid.headD []).length := by rw [climbGrid_eq]; norm_num
  have hbi := bicubic_at_point hhead climbGrid_rows_ne climbXPoints_chain
    climbYPoints_chain hx2 hy2 hrow hp hpx hyj
  rw [calculateClimb, hbi]
  rfl

/-- Claim C10 counterexample: on a single-row grid satisfying the
claim's hypotheses (rows trivially share the first row's y sequence,
row x-values and y-values strictly increasing), the query at the first
data point's coordinates does not return that point's `z1`/`z2` —
`locate` cannot bracket the x-axis of one row and the lookup throws. -/
theorem C10_counterexample :
    bicubicInterpolate [[⟨0, 0, 1, 2⟩, ⟨0, 1, 3, 4⟩]] 0 0 ≠ some (1, 2) := by
  have h : bicubicInterpolate [[⟨0, 0, 1, 2⟩, ⟨0, 1, 3, 4⟩]] 0 0 = none := rfl
  rw [h]
  simp

/-- Claim C10 (amended): on every grid with at least two rows and at
least two columns whose rows all share the first row's y sequence,
whose per-row x-values are constant and strictly increasing across
rows, and whose y-values are strictly increasing, a query at a data
point's coordinates makes `bicubicInterpolate` return exactly that
point's `z1` and `z2` (the Catmull-Rom weights at fractional positions
0 and 1 select the node); and `calculateClimb` at any data point of
the embedded (ragged) climb grid returns that point's minutes rounded
to the nearest integer and its `fuelGal` unchanged. -/
theorem C10_bicubic_data_point :
    (∀ (grid : List (List DataPoint)) (r0 : List DataPoint) (i j : ℕ)
        (rowi : List DataPoint) (p : DataPoint),
      grid.head? = some r0 →
      (∀ row ∈ grid, row.map (fun q => q.y) = r0.map (fun q => q.y)) →
      (∀ row ∈ grid, ∀ q ∈ row, q.x = (row.headD default).x) →
      (grid.map (fun row => (row.headD default).x)).Chain' (· < ·) →
      (r0.map (fun q => q.y)).Chain' (· < ·) →
      2 ≤ grid.length → 2 ≤ r0.length →
      grid.get? i = some rowi → rowi.get? j = some p →
      bicubicInterpolate grid p.x p.y = some (p.z1, p.z2)) ∧
    (∀ (i j : ℕ) (rowi : List DataPoint) (p : DataPoint),
      climbGrid.get? i = some rowi → rowi.get? j = some p →
      calculateClimb p.x p.y = some (mathRound p.z1, p.z2)) := by
  constructor
  · intro grid r0 i j rowi p hhead hysame hxconst hxchain hychain hx2 hy2 hrow hp
    have hrmem : rowi ∈ grid := List.get?_mem hrow
    have hpmem : p ∈ rowi := List.get?_mem hp
    have hrowsne : ∀ row ∈ grid, row ≠ [] := by
      intro row hm hnil
      have hys := hysame row hm
      rw [hnil] at hys
      have hl := congrArg List.length hys
      simp only [List.map_nil, List.length_nil, List.length_map] at hl
      omega
    have hxi : (grid.map (fun row => (row.headD default).x)).get? i = some p.x := by
      rw [List.get?_map, hrow]
      simp only [Option.map_some']
      rw [hxconst rowi hrmem p hpmem]
    have hyj : (r0.map (fun q => q.y)).get? j = some p.y := by
      rw [← hysame rowi hrmem, List.get?_map, hp]
      rfl
    exact bicubic_at_point hhead hrowsne hxchain hychain hx2 hy2 hrow hp hxi hyj
  · intro i j rowi p hrow hp
    have hlen : i < climbGrid.length := (List.get?_eq_some.mp hrow).1
    have hlen4 : i < 4 := by
      rw [climbGrid_eq] at hlen
      simpa using hlen
    have h1 := congrArg (Option.map (fun q : DataPoint => q.y)) hp
    rw [← List.get?_map] at h1
    simp only [Option.map_some'] at h1
    have hjlen := (List.get?_eq_some.mp h1).1
    have hm := List.get?_mem hp
    rw [climbGrid_eq] at hrow
    interval_cases i
    · obtain rfl : _ = rowi := Option.some.inj (by simpa using hrow)
      refine calculateClimb_at_row (i := 0) (by rw [climbGrid_eq]; rfl) hp ?_ ?_
      · have hpxv : p.x = -15 := by fin_cases hm <;> rfl
        rw [hpxv, climbGrid_eq]
        rfl
      · rw [climbGrid_eq]
        exact h1
    · obtain rfl : _ = rowi := Option.some.inj (by simpa using hrow)
      refine calculateClimb_at_row (i := 1) (by rw [climbGrid_eq]; rfl) hp ?_ ?_
      · have hpxv : p.x = 0 := by fin_cases hm <;> rfl
        rw [hpxv, climbGrid_eq]
        rfl
      · rw [climbGrid_eq]
        exact h1
    · obtain rfl : _ = rowi := Option.some.inj (by simpa using hrow)
      refine calculateClimb_at_row (i := 2) (by rw [climbGrid_eq]; rfl) hp ?_ ?_
      · have hpxv : p.x = 15 := by fin_cases hm <;> rfl
        rw [hpxv, climbGrid_eq]
        rfl
      · rw [climbGrid_eq]
        exact (@List.get?_append ℚ _ [110, 120] j hjlen).trans h1
    · obtain rfl : _ = rowi := Option.some.inj (by simpa using hrow)
      refine calculateClimb_at_row (i := 3) (by rw [climbGrid_eq]; rfl) hp ?_ ?_
      · have hpxv : p.x = 30 := by fin_cases hm <;> rfl
        rw [hpxv, climbGrid_eq]
        rfl
      · rw [climbGrid_eq]
        exact (@List.get?_append ℚ _ [100, 110, 120] j hjlen).trans h1

theorem C10_bicubic_data_point_witness :
    bicubicInterpolate [[⟨0, 0, 1, 2⟩, ⟨0, 1, 3, 4⟩],
      [⟨5, 0, 7, 8⟩, ⟨5, 1, 9, 10⟩]] 5 1 = some (9, 10) ∧
    calculateClimb 30 90 = some (55, 11.8) := by
  constructor
  · exact C10_bicubic_data_point.1
      [[⟨0, 0, 1, 2⟩, ⟨0, 1, 3, 4⟩], [⟨5, 0, 7, 8⟩, ⟨5, 1, 9, 10⟩]]
      [⟨0, 0, 1, 2⟩, ⟨0, 1, 3, 4⟩] 1 1 [⟨5, 0, 7, 8⟩, ⟨5, 1, 9, 10⟩]
      ⟨5, 1, 9, 10⟩ rfl
      (by intro row h; rcases (by simpa using h) with rfl | rfl <;> rfl)
      (by intro row h; fin_cases h <;> (intro q hq; fin_cases hq <;> rfl))
      (by norm_num [List.chain'_cons, List.chain'_singleton])
      (by norm_num [List.chain'_cons, List.chain'_singleton])
      (by norm_num) (by norm_num) rfl rfl
  · have h := C10_bicubic_data_point.2 3 8
      [⟨30, 10, 2, 1.5⟩, ⟨30, 20, 5, 2⟩, ⟨30, 30, 8, 2.4⟩, ⟨30, 40, 11, 3.1⟩,
        ⟨30, 50, 15, 4⟩, ⟨30, 60, 20, 5⟩, ⟨30, 70, 26, 6.2⟩, ⟨30, 80, 35, 8⟩,
        ⟨30, 90, 55, 11.8⟩] ⟨30, 90, 55, 11.8⟩
      (by rw [climbGrid_eq]; rfl) rfl
    have h2 : mathRound 55 = 55 := by norm_num [mathRound]
    simpa [h2] using h
